import Mathlib

/-!
Verification of the gitoxide index decoder (`git-index/src/decode/mod.rs`,
`git-index/src/extension/mod.rs`) and of the object-store slot map refresher
(`git-odb/src/store/general/load_index.rs`).

Bytes are modelled as `List Nat`, machine integers as `Nat` (with explicit
bounds where overflow matters), on-disk paths as lists of components
(`List String`).  Fallible code returns `Except`; code that can panic
(`todo!`, `expect`, asserts, out-of-bounds indexing) returns a result type
with an explicit panic constructor carrying a `PanicKind`.

Code that lives outside the sources at hand (the per-entry decoder
`entries::load_chunk`, `decode::header`, `extension::decode::all`, the IEOT
finder, `num_threads`) is modelled from the specification; each such
definition carries a doc comment starting with `Modelled from the spec:`.
-/

deriving instance DecidableEq for Except

namespace Gitoxide

/-- The configured object hash kind (`git_hash::Kind`): Sha1 = 20 bytes,
Sha256 = 32 bytes. -/
inductive HashKind
  | sha1
  | sha256
deriving DecidableEq

/-- `git_hash::Kind::len_in_bytes`. -/
def HashKind.len_in_bytes : HashKind → Nat
  | .sha1 => 20
  | .sha256 => 32

/-- Index file versions accepted by the header decoder (v2, v3, v4). -/
inductive Version
  | v2
  | v3
  | v4
deriving DecidableEq

/-- A half-open `[start, end)` range into the path backing buffer
(the `path` field of an entry). -/
structure Range where
  start : Nat
  «end» : Nat
deriving DecidableEq

/-- Stat metadata of one index entry (ctime/mtime seconds+nanos, device,
inode, mode, uid, gid, size), all decoded as big-endian u32 values. -/
structure EntryStat where
  ctime_secs : Nat
  ctime_nanos : Nat
  mtime_secs : Nat
  mtime_nanos : Nat
  dev : Nat
  ino : Nat
  mode : Nat
  uid : Nat
  gid : Nat
  size : Nat
deriving DecidableEq

/-- One index entry: stat metadata, object id bytes, flag bits and the
`[start, end)` range into the shared path backing buffer.  Entries never own
their path bytes. -/
structure Entry where
  stat : EntryStat
  id : List Nat
  flags : Nat
  path : Range
deriving DecidableEq

/-- Decode errors of `decode::Error` in `git-index/src/decode/mod.rs`
(lines 13-33): `Header`, `Entry(index)`, `Extension`,
`UnexpectedTrailerLength{expected, actual}`. -/
inductive DecErr
  | header
  | entry (index : Nat)
  | extension
  | unexpectedTrailerLength (expected : Nat) (actual : Nat)
deriving DecidableEq

/-- Decode options (`decode::Options`, lines 38-49): object hash kind, the
thread limit policy and the minimum extension block size that justifies a
dedicated extension-decoding thread. -/
structure Options where
  object_hash : HashKind
  thread_limit : Option Nat
  min_extension_block_in_bytes_for_threading : Nat
deriving DecidableEq

/-- Modelled from the spec: the doc comment on `Options::thread_limit`
(decode/mod.rs lines 41-43) — `git_features::parallel::num_threads`:
`Some(0)` or `None` mean as many threads as there are physical cores
(the core count is an explicit parameter here), `Some(n)` with `n > 0`
means `n` threads. -/
def num_threads (thread_limit : Option Nat) (cores : Nat) : Nat :=
  match thread_limit with
  | none => cores
  | some 0 => cores
  | some n => n

/-- Read a big-endian u32 from four byte values. -/
def u32be4 (b0 b1 b2 b3 : Nat) : Nat :=
  ((b0 * 256 + b1) * 256 + b2) * 256 + b3

/-- Read a big-endian u32 from the front of a byte list. -/
def readU32BE : List Nat → Option (Nat × List Nat)
  | b0 :: b1 :: b2 :: b3 :: rest => some (u32be4 b0 b1 b2 b3, rest)
  | _ => none

/-- Read a big-endian u16 from the front of a byte list. -/
def readU16BE : List Nat → Option (Nat × List Nat)
  | b0 :: b1 :: rest => some (b0 * 256 + b1, rest)
  | _ => none

/-- Modelled from the spec: §4.1 — `decode::header::decode` is not under the
sources at hand.  Verifies the `DIRC` magic, decodes the big-endian version
(2, 3 or 4 accepted) and the entry count, fails with `Header` when the magic
mismatches, the version is unsupported or the slice is shorter than
`12 + hash_len`, and returns the slice positioned past the 12 header
bytes. -/
def header_decode (data : List Nat) (object_hash : HashKind) :
    Except DecErr (Version × Nat × List Nat) :=
  if data.length < 12 + object_hash.len_in_bytes then .error .header
  else
    match data with
    | m0 :: m1 :: m2 :: m3 :: v0 :: v1 :: v2 :: v3 :: c0 :: c1 :: c2 :: c3 :: rest =>
      if m0 = 68 ∧ m1 = 73 ∧ m2 = 82 ∧ m3 = 67 then
        match u32be4 v0 v1 v2 v3 with
        | 2 => .ok (.v2, u32be4 c0 c1 c2 c3, rest)
        | 3 => .ok (.v3, u32be4 c0 c1 c2 c3, rest)
        | 4 => .ok (.v4, u32be4 c0 c1 c2 c3, rest)
        | _ => .error .header
      else .error .header
    | _ => .error .header

/-- Modelled from the spec: §4.3 — a variable-length integer used by the v4
prefix compression (most-significant-bit continuation, 7 value bits per
byte). -/
def readVarint : List Nat → Option (Nat × List Nat)
  | [] => none
  | b :: rest =>
    if b < 128 then some (b, rest)
    else
      match readVarint rest with
      | some (n, r) => some (n * 128 + (b - 128), r)
      | none => none

/-- Modelled from the spec: §4.3 — decode the ten big-endian u32 stat fields
at the front of an entry (40 bytes). -/
def readStat (data : List Nat) : Option (EntryStat × List Nat) := do
  let (cs, d) ← readU32BE data
  let (cn, d) ← readU32BE d
  let (ms, d) ← readU32BE d
  let (mn, d) ← readU32BE d
  let (dev, d) ← readU32BE d
  let (ino, d) ← readU32BE d
  let (mode, d) ← readU32BE d
  let (uid, d) ← readU32BE d
  let (gid, d) ← readU32BE d
  let (size, d) ← readU32BE d
  pure (⟨cs, cn, ms, mn, dev, ino, mode, uid, gid, size⟩, d)

/-- Modelled from the spec: §4.3 — decode a single entry: the fixed
stat+hash+flags header (with two extra flag bytes in v3+ when the extended
bit 14 is set; the extra bytes are folded into the high bits of `flags`),
then the path.  In v2/v3 the path is NUL-terminated and the whole entry is
padded to an 8-byte boundary; in v4 a varint strip count removes bytes from
the previous path's tail and a NUL-terminated suffix is appended (no
padding).  Returns the stat, id, flags, the decoded path bytes and the
remaining input. -/
def load_entry (data : List Nat) (prev_path : List Nat) (object_hash : HashKind)
    (version : Version) : Option (EntryStat × List Nat × Nat × List Nat × List Nat) := do
  let (stat, d1) ← readStat data
  let id := d1.take object_hash.len_in_bytes
  if d1.length < object_hash.len_in_bytes then none
  else
    let d2 := d1.drop object_hash.len_in_bytes
    let (flags16, d3) ← readU16BE d2
    let extended := version ≠ .v2 ∧ flags16.testBit 14
    let (flags, d4) ←
      if extended then
        match readU16BE d3 with
        | some (ext, d) => some (flags16 * 65536 + ext, d)
        | none => none
      else some (flags16, d3)
    match version with
    | .v4 =>
      let (strip, d5) ← readVarint d4
      if strip > prev_path.length then none
      else
        let suffix := d5.takeWhile (· ≠ 0)
        if suffix.length < d5.length then
          let path := prev_path.take (prev_path.length - strip) ++ suffix
          some (stat, id, flags, path, d5.drop (suffix.length + 1))
        else none
    | _ =>
      let fixed_len := 40 + object_hash.len_in_bytes + 2 + (if extended then 2 else 0)
      let path := d4.takeWhile (· ≠ 0)
      if path.length < d4.length then
        let entry_len := ((fixed_len + path.length + 1 + 7) / 8) * 8
        let consumed := entry_len - fixed_len
        if consumed ≤ d4.length then some (stat, id, flags, path, d4.drop consumed)
        else none
      else none

/-- Sparse directory entries carry mode `0o40000` (§4.3 step 3). -/
def isSparseEntry (stat : EntryStat) : Bool := stat.mode == 16384

/-- Modelled from the spec: §4.3 — the loop of `entries::load_chunk`:
decode exactly `remaining` entries, appending each entry to `entries` and
its decoded path bytes to `path_backing`; the entry stores only the
`[start, end)` range (based at the current backing length).  `prev_path`
threads the previously decoded path for v4 prefix compression and `i` counts
the entries decoded by this call (used as the `Entry(index)` error
position). -/
def load_chunk_go (data : List Nat) (entries : List Entry) (path_backing : List Nat)
    (prev_path : List Nat) (is_sparse : Bool) (i : Nat) (remaining : Nat)
    (object_hash : HashKind) (version : Version) :
    Except DecErr (List Entry × List Nat × Bool × List Nat) :=
  match remaining with
  | 0 => .ok (entries, path_backing, is_sparse, data)
  | n + 1 =>
    match load_entry data prev_path object_hash version with
    | none => .error (.entry i)
    | some (stat, id, flags, path, rest) =>
      load_chunk_go rest
        (entries ++ [⟨stat, id, flags, ⟨path_backing.length, path_backing.length + path.length⟩⟩])
        (path_backing ++ path) path (is_sparse || isSparseEntry stat) (i + 1) n
        object_hash version

/-- Modelled from the spec: §4.3 — `entries::load_chunk`: decode exactly
`num_entries` entries from `data` into the given entry vector and path
backing buffer, returning the updated vectors, the chunk's sparse flag and
the remaining input. -/
def load_chunk (data : List Nat) (entries : List Entry) (path_backing : List Nat)
    (num_entries : Nat) (object_hash : HashKind) (version : Version) :
    Except DecErr (List Entry × List Nat × Bool × List Nat) :=
  load_chunk_go data entries path_backing [] false 0 num_entries object_hash version

/-- The per-thread entry decoding outcome (`EntriesOutcome`, decode/mod.rs
lines 230-234). -/
structure EntriesOutcome where
  entries : List Entry
  path_backing : List Nat
  is_sparse : Bool
deriving DecidableEq

/-- Adjust an entry's path range by an offset — the per-entry step of the
merge fold (decode/mod.rs lines 147-151: `e.path.start += ofs;
e.path.end += ofs`). -/
def shiftEntry (ofs : Nat) (e : Entry) : Entry :=
  { e with path := ⟨e.path.start + ofs, e.path.«end» + ofs⟩ }

/-- One step of the in-order merge fold (decode/mod.rs lines 141-157):
or the sparse flags, append the right-hand path backing, append the
right-hand entries with their ranges adjusted by the accumulator's previous
path-backing length. -/
def mergeOutcome (lhs rhs : EntriesOutcome) : EntriesOutcome :=
  { entries := lhs.entries ++ rhs.entries.map (shiftEntry lhs.path_backing.length),
    path_backing := lhs.path_backing ++ rhs.path_backing,
    is_sparse := lhs.is_sparse || rhs.is_sparse }

/-- `load_entries` (decode/mod.rs lines 236-263): sequential decode of all
entries into one vector and one backing buffer (the capacity pre-sizing via
`estimate_path_storage_requirements_in_bytes` only tunes allocations and is
semantically inert, so it is not modelled). -/
def load_entries (post_header_data : List Nat) (num_entries : Nat)
    (object_hash : HashKind) (version : Version) :
    Except DecErr (EntriesOutcome × List Nat) :=
  match load_chunk post_header_data [] [] num_entries object_hash version with
  | .error e => .error e
  | .ok (entries, path_backing, is_sparse, rest) => .ok (⟨entries, path_backing, is_sparse⟩, rest)

/-- An IEOT chunk descriptor: offset from the beginning of the file and the
number of entries in the chunk. -/
structure ChunkOffset where
  from_beginning_of_file : Nat
  num_entries : Nat
deriving DecidableEq

/-- Modelled from the spec: §4.4 — parse an IEOT payload as consecutive
pairs of big-endian u32 `(offset_from_file_start, num_entries)`
descriptors. -/
def parseIeotPairs : List Nat → Option (List ChunkOffset)
  | [] => some []
  | b0 :: b1 :: b2 :: b3 :: b4 :: b5 :: b6 :: b7 :: rest =>
    match parseIeotPairs rest with
    | some l => some (⟨u32be4 b0 b1 b2 b3, u32be4 b4 b5 b6 b7⟩ :: l)
    | none => none
  | _ => none

/-- Modelled from the spec: §4.4 — the record walk of
`extension::index_entry_offset_table::find`, with an explicit iteration
bound (each record consumes at least eight bytes, so a bound of the input
length never runs out first). -/
def index_entry_offset_table_find_go (fuel : Nat) (data : List Nat) (object_hash : HashKind) :
    Option (List ChunkOffset) :=
  match fuel with
  | 0 => none
  | fuel + 1 =>
    if data.length ≤ object_hash.len_in_bytes then none
    else
      match data with
      | s0 :: s1 :: s2 :: s3 :: z0 :: z1 :: z2 :: z3 :: rest =>
        let size := u32be4 z0 z1 z2 z3
        if size > rest.length then none
        else if s0 = 73 ∧ s1 = 69 ∧ s2 = 79 ∧ s3 = 84 then
          match parseIeotPairs (rest.take size) with
          | some (c :: cs) => some (c :: cs)
          | _ => none
        else index_entry_offset_table_find_go fuel (rest.drop size) object_hash
      | _ => none

/-- Modelled from the spec: §4.4 — `extension::index_entry_offset_table::find`
walks the extension records `{signature[4], size u32 BE, payload[size]}` of
the extension block (stopping at the trailing hash) looking for the `IEOT`
signature and parses its payload into a non-empty list of chunk
descriptors; anything else yields `none`. -/
def index_entry_offset_table_find (data : List Nat) (object_hash : HashKind) :
    Option (List ChunkOffset) :=
  index_entry_offset_table_find_go data.length data object_hash

/-- The typed extension payloads collected by `extension::decode::all`
(the `extension::decode::Outcome` consumed at decode/mod.rs lines 203-210).
Payloads are kept as their raw bytes. -/
structure ExtOutcome where
  tree : Option (List Nat)
  link : Option (List Nat)
  resolve_undo : Option (List Nat)
  untracked : Option (List Nat)
  is_sparse : Bool
deriving DecidableEq

/-- Modelled from the spec: §4.4 — the loop of `extension::decode::all`:
iterate extension records until the trailing hash (or the end of the slice)
is reached.  Recognized signatures: `TREE`, `REUC`, `link`, `UNTR` store
their payload; `sdir` sets the sparse marker; `EOIE` and `IEOT` are decode
hints consumed elsewhere and are skipped.  An unrecognized signature whose
first byte is uppercase is mandatory and fails with `Extension`;
lowercase-first signatures are silently skipped. -/
def extension_decode_all_go (fuel : Nat) (data : List Nat) (object_hash : HashKind)
    (acc : ExtOutcome) : Except DecErr (ExtOutcome × List Nat) :=
  match fuel with
  | 0 => .error .extension
  | fuel + 1 =>
    if data.length ≤ object_hash.len_in_bytes then .ok (acc, data)
    else
      match data with
      | s0 :: s1 :: s2 :: s3 :: z0 :: z1 :: z2 :: z3 :: rest =>
        let size := u32be4 z0 z1 z2 z3
        if size > rest.length then .error .extension
        else
          let payload := rest.take size
          let next := rest.drop size
          if s0 = 84 ∧ s1 = 82 ∧ s2 = 69 ∧ s3 = 69 then
            extension_decode_all_go fuel next object_hash { acc with tree := some payload }
          else if s0 = 82 ∧ s1 = 69 ∧ s2 = 85 ∧ s3 = 67 then
            extension_decode_all_go fuel next object_hash { acc with resolve_undo := some payload }
          else if s0 = 108 ∧ s1 = 105 ∧ s2 = 110 ∧ s3 = 107 then
            extension_decode_all_go fuel next object_hash { acc with link := some payload }
          else if s0 = 85 ∧ s1 = 78 ∧ s2 = 84 ∧ s3 = 82 then
            extension_decode_all_go fuel next object_hash { acc with untracked := some payload }
          else if s0 = 115 ∧ s1 = 100 ∧ s2 = 105 ∧ s3 = 114 then
            extension_decode_all_go fuel next object_hash { acc with is_sparse := true }
          else if (s0 = 69 ∧ s1 = 79 ∧ s2 = 73 ∧ s3 = 69) ∨
              (s0 = 73 ∧ s1 = 69 ∧ s2 = 79 ∧ s3 = 84) then
            extension_decode_all_go fuel next object_hash acc
          else if 65 ≤ s0 ∧ s0 ≤ 90 then .error .extension
          else extension_decode_all_go fuel next object_hash acc
      | _ => .error .extension

/-- Modelled from the spec: §4.4 — `extension::decode::all`, starting from
an empty outcome (the iteration bound of the input length never runs out:
each record consumes at least eight bytes). -/
def extension_decode_all (data : List Nat) (object_hash : HashKind) :
    Except DecErr (ExtOutcome × List Nat) :=
  extension_decode_all_go data.length data object_hash ⟨none, none, none, none, false⟩

/-- Panic sites of the modelled code (`todo!`, `expect`, asserts,
out-of-bounds indexing), each represented by one constructor. -/
inductive PanicKind
  | atLeastOneResult
  | todoDecodeUntr
  | todoConsolidate
  | todoCopyToDisposableSlot
  | todoCopyCloneResources
  | assertSamePathHandled
  | expectSlotIsSet
  | assertParallelWriters
  | unreachableSlotDeleted
  | assertGenerationChanged
  | indexOutOfBounds
deriving DecidableEq

/-- The decoded index state (`State`, populated at decode/mod.rs lines
212-224): timestamp, version, the ordered entries, the single path backing
buffer they index into, the sparse flag and the optional decoded extension
payloads. -/
structure IndexState where
  timestamp : Nat
  version : Version
  entries : List Entry
  path_backing : List Nat
  is_sparse : Bool
  tree : Option (List Nat)
  link : Option (List Nat)
  resolve_undo : Option (List Nat)
  untracked : Option (List Nat)
deriving DecidableEq

/-- Result of `State::from_bytes`: the state and the trailing checksum
bytes, a decode error, or a panic. -/
inductive DecodeResult
  | ok (state : IndexState) (checksum : List Nat)
  | err (e : DecErr)
  | panic (k : PanicKind)
deriving DecidableEq

/-- Ceiling division, modelling
`(entry_offsets.len() as f32 / num_threads as f32).ceil() as usize`
(decode/mod.rs line 85) exactly on naturals. -/
def ceilDiv (a b : Nat) : Nat := (a + b - 1) / b

/-- The chunking loop with an explicit iteration bound (each step consumes
at least one element when `k ≥ 1`, so a bound of the input length never
runs out first). -/
def chunksOfGo (fuel k : Nat) : List α → List (List α)
  | [] => []
  | x :: xs =>
    match fuel with
    | 0 => []
    | fuel + 1 =>
      if k = 0 then []
      else (x :: xs).take k :: chunksOfGo fuel k ((x :: xs).drop k)

/-- `slice::chunks(k)`: split a list into consecutive chunks of `k`
elements, the last chunk possibly shorter.  Rust panics for `k = 0`; the
model returns `[]` there (the driver is proven to call it with `k ≥ 1`). -/
def chunksOf (k : Nat) (l : List α) : List (List α) :=
  chunksOfGo l.length k l

/-- The body of one entry-decoding worker (decode/mod.rs lines 90-128):
walk the worker's chunk descriptors, decoding each chunk from its absolute
file offset into the worker's private entry vector and path backing buffer,
or-ing the sparse flags. -/
def worker_go (data : List Nat) (descriptors : List ChunkOffset) (entries : List Entry)
    (path_backing : List Nat) (is_sparse : Bool) (object_hash : HashKind)
    (version : Version) : Except DecErr EntriesOutcome :=
  match descriptors with
  | [] => .ok ⟨entries, path_backing, is_sparse⟩
  | offset :: rest =>
    match load_chunk (data.drop offset.from_beginning_of_file) entries path_backing
        offset.num_entries object_hash version with
    | .error e => .error e
    | .ok (entries', path_backing', chunk_is_sparse, _) =>
      worker_go data rest entries' path_backing' (is_sparse || chunk_is_sparse)
        object_hash version

/-- The in-order collection of worker results (decode/mod.rs lines 130-157):
starting from the first worker's result, fold the remaining results in
chunk-id order; the loop stops at the first error (either an error
accumulator or an error result). -/
def merge_results (acc : Except DecErr EntriesOutcome) :
    List (Except DecErr EntriesOutcome) → Except DecErr EntriesOutcome
  | [] => acc
  | r :: rest =>
    match acc with
    | .error e => .error e
    | .ok lhs =>
      match r with
      | .error e => .error e
      | .ok rhs => merge_results (.ok (mergeOutcome lhs rhs)) rest

/-- Lines 77-82 of decode/mod.rs:
`(extensions_data.len() > min_…).then({ num_threads -= 1; || scope.spawn(…) })`.
The block argument of `bool::then` is evaluated eagerly, so `num_threads`
is decremented whenever this parallel branch runs; only the spawn of the
extension worker is conditional on the threshold.  Returns the thread count
left for entry decoding and whether an extension worker was spawned. -/
def extension_loading_decision (extensions_data_len min_extension_block_in_bytes_for_threading
    num_threads : Nat) : Nat × Bool :=
  (num_threads - 1, extensions_data_len > min_extension_block_in_bytes_for_threading)

/-- The tail of `State::from_bytes` (decode/mod.rs lines 190-226): after
entries and extensions are decoded, the remaining slice must be exactly
`hash_len` bytes long — otherwise `UnexpectedTrailerLength{expected, actual}`
— and is interpreted as the index checksum; the state is assembled from the
entries outcome and the extension outcome with the sparse flags or-ed. -/
def finishDecode (timestamp : Nat) (version : Version) (outcome : EntriesOutcome)
    (ext : ExtOutcome) (rest : List Nat) (object_hash : HashKind) : DecodeResult :=
  if rest.length ≠ object_hash.len_in_bytes then
    .err (.unexpectedTrailerLength object_hash.len_in_bytes rest.length)
  else
    .ok
      { timestamp := timestamp
        version := version
        entries := outcome.entries
        path_backing := outcome.path_backing
        is_sparse := outcome.is_sparse || ext.is_sparse
        tree := ext.tree
        link := ext.link
        resolve_undo := ext.resolve_undo
        untracked := ext.untracked }
      rest

/-- The sequential arm of `State::from_bytes` (decode/mod.rs lines 177-187):
decode all entries into one vector and one backing buffer, then decode the
extensions from the remaining input on the same thread. -/
def sequentialPath (timestamp : Nat) (version : Version) (num_entries : Nat)
    (post_header_data : List Nat) (object_hash : HashKind) : DecodeResult :=
  match load_entries post_header_data num_entries object_hash version with
  | .error e => .err e
  | .ok (outcome, rest) =>
    match extension_decode_all rest object_hash with
    | .error e => .err e
    | .ok (ext, ext_rest) => finishDecode timestamp version outcome ext ext_rest object_hash

/-- `State::from_bytes` (decode/mod.rs lines 52-227).  `cores` stands for
the machine's physical core count and `start_of_extensions` for the result
of the EOIE probe `extension::end_of_index_entry::decode` (§4.2) — that
probe verifies a checksum over the extension block and is code outside the
sources at hand, so its result is an input here.  When the probe found the
extension offset and the effective thread count exceeds one, the driver
looks for an IEOT table in the extension block: with a table, the chunk
descriptors are split into `num_threads` groups, each group is decoded by a
worker into private buffers, and the results are merged in chunk-id order
(the merged arm's own trailer slice, line 158, is discarded at line 175 in
favour of the extension decoder's remaining input, which the model reflects);
without a table the entries are decoded sequentially while the extension
block may still decode on its own worker.  Extension errors are surfaced
before entry errors (lines 174-175).  Otherwise the fully sequential arm
runs.  Finally the trailer length is verified. -/
def from_bytes (data : List Nat) (timestamp : Nat) (opts : Options) (cores : Nat)
    (start_of_extensions : Option Nat) : DecodeResult :=
  match header_decode data opts.object_hash with
  | .error e => .err e
  | .ok (version, num_entries, post_header_data) =>
    let numThreads := num_threads opts.thread_limit cores
    match start_of_extensions with
    | some offset =>
      if numThreads > 1 then
        let extensions_data := data.drop offset
        let index_offsets_table := index_entry_offset_table_find extensions_data opts.object_hash
        let nb := extension_loading_decision extensions_data.length
          opts.min_extension_block_in_bytes_for_threading numThreads
        let numThreads1 := nb.1
        match index_offsets_table with
        | some entry_offsets =>
          let chunk_size := ceilDiv entry_offsets.length numThreads1
          match (chunksOf chunk_size entry_offsets).map
              (fun g => worker_go data g [] [] false opts.object_hash version) with
          | [] => .panic .atLeastOneResult
          | first :: rest =>
            match extension_decode_all extensions_data opts.object_hash with
            | .error e => .err e
            | .ok (ext, ext_rest) =>
              match merge_results first rest with
              | .error e => .err e
              | .ok outcome => finishDecode timestamp version outcome ext ext_rest opts.object_hash
        | none =>
          match extension_decode_all extensions_data opts.object_hash with
          | .error e => .err e
          | .ok (ext, ext_rest) =>
            match load_entries post_header_data num_entries opts.object_hash version with
            | .error e => .err e
            | .ok (outcome, _) => finishDecode timestamp version outcome ext ext_rest opts.object_hash
      else sequentialPath timestamp version num_entries post_header_data opts.object_hash
    | none => sequentialPath timestamp version num_entries post_header_data opts.object_hash

/-- Result of `extension::untracked::decode`: either a returned value
(`Option<Untracked>`, the payload modelled as a unit) or a panic. -/
inductive UntrackedDecodeResult
  | returns (value : Option Unit)
  | panics (k : PanicKind)
deriving DecidableEq

/-- `extension::untracked::decode` (git-index/src/extension/mod.rs lines
50-52): the body is `todo!("decode UNTR")`, which panics unconditionally on
every input. -/
def untracked_decode (_data : List Nat) (_object_hash : HashKind) : UntrackedDecodeResult :=
  .panics .todoDecodeUntr

/-!
The object-store slot map and refresher
(`git-odb/src/store/general/load_index.rs`).  On-disk paths are lists of
components; modification times are `Nat`.
-/

/-- A filesystem path as a list of components. -/
abbrev DiskPath := List String

/-- The `pack` subdirectory component. -/
def packComp : String := "pack"

/-- The extension of pack index files. -/
def idxExt : String := "idx"

/-- The file name of a multi-pack index. -/
def multiPackIndexName : String := "multi-pack-index"

/-- `std::path::Path::extension` of a file name: the part after the last
dot, unless there is no dot or the name is a dot file with no other dot. -/
def fileExtension (name : String) : Option String :=
  let parts := name.splitOn (".")
  match parts with
  | [] => none
  | [_] => none
  | _ =>
    if parts.length = 2 ∧ parts.head? = some ("") then none
    else parts.getLast?

/-- `Path::file_name` of a component path. -/
def pathFileName (p : DiskPath) : Option String := p.getLast?

/-- `Path::extension` of a component path. -/
def pathExtension (p : DiskPath) : Option String := (pathFileName p).bind fileExtension

/-- `is_multipack_index` (load_index.rs lines 528-530): the file name is
exactly `multi-pack-index`. -/
def is_multipack_index (p : DiskPath) : Bool := pathFileName p == some multiPackIndexName

/-- The bundle held by a slot (`IndexAndPacks` as observed by the refresher):
its index path, modification time, whether its index is loaded and whether
it is disposable.  Modelled from the spec: §3 Slot / §4.6 — the concrete
`general::store` types are not under the sources at hand. -/
structure OnDiskBundle where
  index_path : DiskPath
  mtime : Nat
  loaded : Bool
  disposable : Bool
deriving DecidableEq

/-- `IndexAndPacks::new_by_index_path`: a fresh unloaded, non-disposable
bundle for the given index path and mtime.  Modelled from the spec: §4.6. -/
def new_by_index_path (index_path : DiskPath) (mtime : Nat) : OnDiskBundle :=
  { index_path := index_path, mtime := mtime, loaded := false, disposable := false }

/-- `put_back`: the reverse of marking a bundle disposable.  Modelled from
the spec: §4.6. -/
def put_back (b : OnDiskBundle) : OnDiskBundle := { b with disposable := false }

/-- One slot of the fixed slot array (`MutableIndexAndPack`): the
atomically-swappable optional bundle and the atomic generation tag (the
write mutex serializes the mutations modelled here). -/
structure MutableIndexAndPack where
  files : Option OnDiskBundle
  generation : Nat
deriving DecidableEq

/-- The published `SlotMapIndex`: populated slot indices, loose-object db
paths, the generation, the lazy-loading cursor and the loaded-index
counter.  `ptr_id` models the `Arc` pointer identity of the published value
(`state_id`, modelled from the spec: §4.8 — the identity hash of the
published SlotMapIndex). -/
structure SlotMapIndex where
  slot_indices : List Nat
  loose_dbs : List DiskPath
  generation : Nat
  next_index_to_load : Nat
  loaded_indices : Nat
  ptr_id : Nat
deriving DecidableEq

/-- `SlotMapIndex::is_initialized`.  Modelled from the spec: §4.8 — a store
is considered set up once a consolidation has published a slot map; every
consolidation records at least the primary objects directory as a loose db,
so the model tests that the loose-db list is non-empty. -/
def slot_map_is_populated (i : SlotMapIndex) : Bool := !i.loose_dbs.isEmpty

/-- The store state the refresher works on: the published index, the fixed
slot array (`self.files`), the stable-handle counter and the consolidation
counter, plus the objects directory path guarded by the
`objects_directory` mutex. -/
structure StoreState where
  index : SlotMapIndex
  files : List MutableIndexAndPack
  num_handles_stable : Nat
  num_disk_state_consolidation : Nat
  path : DiskPath
deriving DecidableEq

/-- `load_index::Error` (load_index.rs lines 42-68). -/
inductive StoreError
  | inaccessible (p : DiskPath)
  | io
  | alternate
  | insufficientSlots (current : Nat) (needed : Nat)
  | generationOverflow
deriving DecidableEq

/-- The filesystem-problem errors of a refresh (`Inaccessible`, `Io`,
`Alternate`). -/
def StoreError.isFsError : StoreError → Bool
  | .inaccessible _ => true
  | .io => true
  | .alternate => true
  | _ => false

/-- The reader's marker (`store::SlotIndexMarker`): generation and state
id of the snapshot it resolved. -/
structure SlotIndexMarker where
  generation : Nat
  state_id : Nat
deriving DecidableEq

/-- A lookup snapshot (load_index.rs lines 33-40): the ids of slots ready
for lookup, the loose-db list and the marker of the published index. -/
structure Snapshot where
  indices : List Nat
  loose_dbs : List DiskPath
  marker : SlotIndexMarker
deriving DecidableEq

/-- `load_index::Outcome` (load_index.rs lines 20-31). -/
inductive LoadOutcome
  | replace (s : Snapshot)
  | replaceStable (s : Snapshot)
deriving DecidableEq

/-- `RefreshMode`. -/
inductive RefreshMode
  | never
  | afterAllIndicesLoaded
deriving DecidableEq

/-- Result of `consolidate_with_disk_state` / `load_one_index`
(`Result<Option<Outcome>, Error>` plus the possibility of a panic), carrying
the store state as left behind by the call. -/
inductive ConsolidateResult
  | ok (st : StoreState) (out : Option LoadOutcome)
  | err (st : StoreState) (e : StoreError)
  | panic (st : StoreState) (k : PanicKind)
deriving DecidableEq

/-- Whether the call returned `Ok`. -/
def ConsolidateResult.isOk : ConsolidateResult → Bool
  | .ok _ _ => true
  | _ => false

/-- The store state left behind by the call. -/
def ConsolidateResult.state : ConsolidateResult → StoreState
  | .ok st _ => st
  | .err st _ => st
  | .panic st _ => st

/-- `collect_snapshot` (load_index.rs lines 485-515): when the index is
populated, keep the slot indices whose slot holds a bundle with a loaded
index; the marker records the generation and the state id. -/
def collect_snapshot (st : StoreState) : Snapshot :=
  let index := st.index
  let indices :=
    if slot_map_is_populated index then
      index.slot_indices.filter fun idx =>
        match (st.files.get? idx).bind (fun slot => slot.files) with
        | some b => b.loaded
        | none => false
    else []
  { indices := indices, loose_dbs := index.loose_dbs,
    marker := ⟨index.generation, index.ptr_id⟩ }

/-- `collect_replace_outcome` (load_index.rs lines 517-524). -/
def collect_replace_outcome (st : StoreState) (is_stable : Bool) : LoadOutcome :=
  if is_stable then .replaceStable (collect_snapshot st) else .replace (collect_snapshot st)

/-- `maintain_stable_indices` (load_index.rs lines 481-483): the code
returns `num_handles_stable == 0`. -/
def maintain_stable_indices (num_handles_stable : Nat) : Bool :=
  num_handles_stable == 0

/-- `set_slot_to_index` (load_index.rs lines 406-418): under the slot's
write mutex, replace the slot's bundle by a fresh one for the given index
path and mtime.  The `current_generation` parameter is accepted but the
function body never stores it into the slot's generation tag. -/
def set_slot_to_index (slot : MutableIndexAndPack) (index_path : DiskPath) (mtime : Nat)
    (_current_generation : Nat) : MutableIndexAndPack :=
  { slot with files := some (new_by_index_path index_path mtime) }

/-- Result of `assure_slot_matches_index`: the updated slot and whether the
index was loaded, or a panic (failed assert / unreachable). -/
inductive AssureResult
  | ok (slot : MutableIndexAndPack) (loaded : Bool)
  | panic (k : PanicKind)
deriving DecidableEq

/-- `assure_slot_matches_index` (load_index.rs lines 421-474): a populated
slot must point at the same path (assert), a disposable bundle is put back
and the slot's generation stored; an empty slot is initialized with a fresh
bundle and the generation stored when `may_init`, and is unreachable
otherwise.  Returns whether the (pre-existing) bundle's index was loaded. -/
def assure_slot_matches_index (slot : MutableIndexAndPack) (index_path : DiskPath)
    (mtime : Nat) (current_generation : Nat) (may_init : Bool) : AssureResult :=
  match slot.files with
  | some bundle =>
    if bundle.index_path ≠ index_path then .panic .assertParallelWriters
    else if bundle.disposable then
      .ok { files := some (put_back bundle), generation := current_generation } bundle.loaded
    else .ok slot bundle.loaded
  | none =>
    if may_init then
      .ok { files := some (new_by_index_path index_path mtime), generation := current_generation }
        false
    else .panic .unreachableSlotDeleted

/-- Result of the placement helpers `try_set_single_index_slot` /
`try_copy_multi_pack_index`: the slot was taken (`Some(dest_was_empty)` in
the source), the probe should keep looking (`None`), or a panic. -/
inductive TrySetResult
  | placed (slot : MutableIndexAndPack) (dest_was_empty : Bool)
  | keepLooking
  | panic (k : PanicKind)
deriving DecidableEq

/-- `try_set_single_index_slot` (load_index.rs lines 333-379): an occupied
slot must not already hold the same path (assert); it is overwritten only
when no stable indices are needed and its bundle is disposable, with the
generation parameter bumped by one; an empty slot is taken via
`assure_slot_matches_index` with `may_init`. -/
def try_set_single_index_slot (slot : MutableIndexAndPack) (index_path : DiskPath)
    (mtime : Nat) (current_generation : Nat) (needs_stable_indices : Bool) : TrySetResult :=
  match slot.files with
  | some bundle =>
    if bundle.index_path == index_path then .panic .assertSamePathHandled
    else if !needs_stable_indices && bundle.disposable then
      .placed (set_slot_to_index slot index_path mtime (current_generation + 1)) false
    else .keepLooking
  | none =>
    match assure_slot_matches_index slot index_path mtime current_generation true with
    | .ok slot' _ => .placed slot' true
    | .panic k => .panic k

/-- `try_copy_multi_pack_index` (load_index.rs lines 383-404): finding the
moved multi-pack index itself in the destination slot keeps looking; every
other case is a `todo!` stub and panics. -/
def try_copy_multi_pack_index (dest_slot : MutableIndexAndPack) (index_path : DiskPath) :
    TrySetResult :=
  match dest_slot.files with
  | some bundle =>
    if bundle.index_path == index_path then .keepLooking
    else .panic .todoCopyToDisposableSlot
  | none => .panic .todoCopyCloneResources

/-- The metadata of one directory entry: whether it is a regular file and
its modification time (`None` models a failing `modified()` call). -/
structure DirMeta where
  isFile : Bool
  modified : Option Nat
deriving DecidableEq

/-- One `read_dir` entry: its path and its metadata (`none` models a
failing `metadata()` call, which the scan silently skips). -/
structure DirEntry where
  path : DiskPath
  meta : Option DirMeta
deriving DecidableEq

/-- Result of `std::fs::read_dir` on a pack directory. -/
inductive PackDirResult
  | notFound
  | ioErr
  | ok (entries : List DirEntry)

/-- The environment of one refresh: what the concurrent world and the
filesystem answer.  `index_after_lock` is the `SlotMapIndex` observed after
taking the `objects_directory` mutex when another refresher swapped the
pointer while we waited (`none` when the pointer is unchanged);
`alternates` is the result of `crate::alternate::resolve`; `pack_entries`
answers `read_dir` per pack directory; `fresh_ptr_id` is the identity of a
newly published `SlotMapIndex`. -/
structure Env where
  index_after_lock : Option SlotMapIndex
  alternates : Except Unit (List DiskPath)
  pack_entries : DiskPath → PackDirResult
  fresh_ptr_id : Nat

/-- `md.modified().map_err(Error::from)` collected over the filtered
entries (load_index.rs lines 163-164): the first failing `modified()` call
aborts with `Io`. -/
def extractMtimes : List (DiskPath × DirMeta) → Except StoreError (List (DiskPath × Nat))
  | [] => .ok []
  | (p, md) :: rest =>
    match md.modified with
    | none => .error .io
    | some m =>
      match extractMtimes rest with
      | .error e => .error e
      | .ok l => .ok ((p, m) :: l)

/-- The scan of one db path's `pack/` directory (load_index.rs lines
147-166): tolerate `NotFound`; other `read_dir` errors abort with `Io`;
skip entries whose `metadata()` fails; keep regular files whose extension
is `idx` or which have no extension and are named `multi-pack-index`; pair
each with its mtime. -/
def scanOnePackDir (env : Env) (db_path : DiskPath) : Except StoreError (List (DiskPath × Nat)) :=
  match env.pack_entries (db_path ++ [packComp]) with
  | .notFound => .ok []
  | .ioErr => .error .io
  | .ok entries =>
    let withMeta := entries.filterMap fun e => e.meta.map fun md => (e.path, md)
    let files := withMeta.filter fun pr => pr.2.isFile
    let relevant := files.filter fun pr =>
      pathExtension pr.1 == some idxExt ||
        (pathExtension pr.1 == none && is_multipack_index pr.1)
    extractMtimes relevant

/-- The scan over all db paths, concatenating the per-directory results in
db-path order. -/
def scanPackDirs (env : Env) : List DiskPath → Except StoreError (List (DiskPath × Nat))
  | [] => .ok []
  | p :: rest =>
    match scanOnePackDir env p with
    | .error e => .error e
    | .ok l =>
      match scanPackDirs env rest with
      | .error e => .error e
      | .ok l2 => .ok (l ++ l2)

/-- Stable insertion into a list sorted by modification time, newest
first. -/
def insertByMtimeDesc (x : DiskPath × Nat) : List (DiskPath × Nat) → List (DiskPath × Nat)
  | [] => [x]
  | y :: ys => if x.2 > y.2 then x :: y :: ys else y :: insertByMtimeDesc x ys

/-- `indices_by_modification_time.sort_by(|l, r| l.1.cmp(&r.1).reverse())`
(load_index.rs line 170): a stable sort by modification time, newest
first. -/
def sortByMtimeDesc : List (DiskPath × Nat) → List (DiskPath × Nat)
  | [] => []
  | x :: xs => insertByMtimeDesc x (sortByMtimeDesc xs)

/-- `idx_by_index_path` (load_index.rs lines 171-178): map each currently
referenced slot's index path to its slot index (slots outside the array or
without a bundle contribute nothing). -/
def buildIdxByIndexPath (files : List MutableIndexAndPack) (slot_indices : List Nat) :
    List (DiskPath × Nat) :=
  slot_indices.filterMap fun idx =>
    (files.get? idx).bind fun slot => slot.files.map fun b => (b.index_path, idx)

/-- `BTreeMap::remove`: look up a path and return its slot index together
with the map without that binding. -/
def lookupRemove (l : List (DiskPath × Nat)) (p : DiskPath) :
    Option (Nat × List (DiskPath × Nat)) :=
  match l with
  | [] => none
  | (q, i) :: rest =>
    if q = p then some (i, rest)
    else
      match lookupRemove rest p with
      | some (j, rest') => some (j, (q, i) :: rest')
      | none => none

/-- Result of the classification loop: the (possibly mutated) slot array,
the map entries not matched by any discovered path, the retained slot
indices, the queue of paths to assign and the loaded-index count — or a
panic. -/
inductive ClassifyResult
  | ok (files : List MutableIndexAndPack) (idxByPath : List (DiskPath × Nat))
      (newIndices : List Nat) (toAdd : List (DiskPath × Nat × Option Nat)) (numLoaded : Nat)
  | panic (k : PanicKind)
deriving DecidableEq

/-- The classification loop over discovered `(path, mtime)` pairs
(load_index.rs lines 186-224): a path already held by a referenced slot is
either queued for re-assignment (changed multi-pack index, counting its
loaded state) or retained via `assure_slot_matches_index` (not allowed to
initialize); an unknown path is queued for assignment to a free slot. -/
def classifyLoop (files : List MutableIndexAndPack) (current_generation : Nat)
    (discovered : List (DiskPath × Nat)) (idxByPath : List (DiskPath × Nat))
    (newIndices : List Nat) (toAdd : List (DiskPath × Nat × Option Nat)) (numLoaded : Nat) :
    ClassifyResult :=
  match discovered with
  | [] => .ok files idxByPath newIndices toAdd numLoaded
  | (index_path, mtime) :: rest =>
    match lookupRemove idxByPath index_path with
    | none =>
      classifyLoop files current_generation rest idxByPath newIndices
        (toAdd ++ [(index_path, mtime, none)]) numLoaded
    | some (slot_idx, idxByPath') =>
      match files.get? slot_idx with
      | none => .panic .indexOutOfBounds
      | some slot =>
        if is_multipack_index index_path then
          match slot.files with
          | none => .panic .expectSlotIsSet
          | some bundle =>
            if bundle.mtime ≠ mtime then
              classifyLoop files current_generation rest idxByPath' newIndices
                (toAdd ++ [(index_path, mtime, some slot_idx)])
                (numLoaded + (if bundle.loaded then 1 else 0))
            else
              match assure_slot_matches_index slot index_path mtime current_generation false with
              | .panic k => .panic k
              | .ok slot' loaded =>
                classifyLoop (files.set slot_idx slot') current_generation rest idxByPath'
                  (newIndices ++ [slot_idx]) toAdd (numLoaded + (if loaded then 1 else 0))
        else
          match assure_slot_matches_index slot index_path mtime current_generation false with
          | .panic k => .panic k
          | .ok slot' loaded =>
            classifyLoop (files.set slot_idx slot') current_generation rest idxByPath'
              (newIndices ++ [slot_idx]) toAdd (numLoaded + (if loaded then 1 else 0))

/-- Result of the slot-assignment loop: the mutated slot array, the new
slot index list, the removal list and the generation-change flag — or an
error / panic (with the slot array as mutated so far). -/
inductive AssignResult
  | ok (files : List MutableIndexAndPack) (newIndices : List Nat) (removeList : List Nat)
      (needs_generation_change : Bool)
  | err (files : List MutableIndexAndPack) (e : StoreError)
  | panic (files : List MutableIndexAndPack) (k : PanicKind)
deriving DecidableEq

/-- The slot-assignment loop (load_index.rs lines 236-289): pop queued
`(path, mtime, move_from)` items and probe slots from
`next_possibly_free_index`, wrapping around; `checked` counts probes across
the whole loop and `InsufficientSlots{current, needed}` is returned when it
reaches the slot count (the source compares with `==`; `checked` grows one
at a time from zero, so `≥` first holds exactly there).  A multi-pack move
goes through `try_copy_multi_pack_index` (recording the source slot for
removal and a generation change when the destination was not empty); a
plain index goes through `try_set_single_index_slot` (a generation change
when the destination was not empty). -/
def assignLoop (files : List MutableIndexAndPack) (current : DiskPath × Nat × Option Nat)
    (queue : List (DiskPath × Nat × Option Nat)) (next_possibly_free_index checked : Nat)
    (newIndices removeList : List Nat) (needs_generation_change : Bool)
    (current_generation : Nat) (needs_stable_indices : Bool) : AssignResult :=
  if h : files.length ≤ checked then
    .err files (.insufficientSlots files.length (queue.length + 1))
  else
    match files.get? next_possibly_free_index with
    | none => .panic files .indexOutOfBounds
    | some slot =>
      let nextFree := (next_possibly_free_index + 1) % files.length
      match current.2.2 with
      | some move_from_slot_idx =>
        match try_copy_multi_pack_index slot current.1 with
        | .panic k => .panic files k
        | .keepLooking =>
          assignLoop files current queue nextFree (checked + 1) newIndices removeList
            needs_generation_change current_generation needs_stable_indices
        | .placed slot' dest_was_empty =>
          let files' := files.set next_possibly_free_index slot'
          let removeList' := removeList ++ [move_from_slot_idx]
          let newIndices' := newIndices ++ [next_possibly_free_index]
          let needsGen' := needs_generation_change || !dest_was_empty
          match queue with
          | [] => .ok files' newIndices' removeList' needsGen'
          | c :: queueRest =>
            assignLoop files' c queueRest nextFree (checked + 1) newIndices' removeList'
              needsGen' current_generation needs_stable_indices
      | none =>
        match try_set_single_index_slot slot current.1 current.2.1 current_generation
            needs_stable_indices with
        | .panic k => .panic files k
        | .keepLooking =>
          assignLoop files current queue nextFree (checked + 1) newIndices removeList
            needs_generation_change current_generation needs_stable_indices
        | .placed slot' dest_was_empty =>
          let files' := files.set next_possibly_free_index slot'
          let newIndices' := newIndices ++ [next_possibly_free_index]
          let needsGen' := needs_generation_change || !dest_was_empty
          match queue with
          | [] => .ok files' newIndices' removeList needsGen'
          | c :: queueRest =>
            assignLoop files' c queueRest nextFree (checked + 1) newIndices' removeList
              needsGen' current_generation needs_stable_indices
termination_by queue.length * (files.length + 1) + (files.length - checked)
decreasing_by
  all_goals simp [List.length_set, add_one_mul]
  all_goals omega

/-- The maximum value of the `Generation` counter (a 32-bit unsigned
integer; `checked_add(1)` fails exactly at this value). -/
def GENERATION_MAX : Nat := 4294967295

/-- The generation computation (load_index.rs lines 296-300):
`prev + 1` iff `needs_generation_change`, else `prev`; `checked_add` turns
overflow into `GenerationOverflow`. -/
def computeGeneration (prev : Nat) (needs_generation_change : Bool) : Except StoreError Nat :=
  if needs_generation_change then
    if prev == GENERATION_MAX then .error .generationOverflow else .ok (prev + 1)
  else .ok prev

/-- The largest referenced slot index (`index.slot_indices.iter().max()`). -/
def maxSlotIndex : List Nat → Option Nat
  | [] => none
  | x :: xs =>
    match maxSlotIndex xs with
    | none => some x
    | some m => some (max x m)

/-- The publication tail of `consolidate_with_disk_state` (load_index.rs
lines 296-329): compute the generation, assert that a generation change
implies a changed slot index list, store a new `SlotMapIndex` when the slot
index list or the loose-db list changed (resetting the lazy-loading cursor
and the loaded counter unless the slot list is identical), run the (empty)
removal loop over `slot_indices_to_remove`, and reach the unconditional
`todo!("consolidate")`. -/
def publishPhase (st : StoreState) (env : Env) (loose_dbs : List DiskPath)
    (files : List MutableIndexAndPack) (newIndices removeList : List Nat)
    (needs_generation_change : Bool) (numLoaded : Nat) : ConsolidateResult :=
  let index := st.index
  let st1 : StoreState := { st with files := files }
  match computeGeneration index.generation needs_generation_change with
  | .error e => .err st1 e
  | .ok generation =>
    let index_unchanged := index.slot_indices == newIndices
    if generation ≠ index.generation ∧ index_unchanged then
      .panic st1 .assertGenerationChanged
    else
      let st2 : StoreState :=
        if !index_unchanged || loose_dbs ≠ index.loose_dbs then
          { st1 with
            index :=
              { slot_indices := newIndices
                loose_dbs := loose_dbs
                generation := generation
                next_index_to_load := if index_unchanged then index.next_index_to_load else 0
                loaded_indices := if index_unchanged then index.loaded_indices else numLoaded
                ptr_id := env.fresh_ptr_id } }
        else st1
      let _ := removeList
      .panic st2 .todoConsolidate

/-- The disk-scanning part of `consolidate_with_disk_state` (load_index.rs
lines 127-329), entered when no other refresher swapped the index while we
waited for the `objects_directory` mutex: resolve alternates, reuse or
rebuild the loose-db list, scan the pack directories, sort by mtime newest
first, classify discovered paths against the current slots, decide
stability, assign queued paths to slots and publish. -/
def consolidateScan (st : StoreState) (env : Env) : ConsolidateResult :=
  let index := st.index
  let was_unpopulated := !slot_map_is_populated index
  match env.alternates with
  | .error _ => .err st .alternate
  | .ok alts =>
    let db_paths := st.path :: alts
    let loose_dbs :=
      if was_unpopulated || db_paths.length ≠ index.loose_dbs.length ||
          (db_paths.zip index.loose_dbs).any (fun pr => pr.1 ≠ pr.2) then db_paths
      else index.loose_dbs
    match scanPackDirs env db_paths with
    | .error e => .err st e
    | .ok found =>
      let indices_by_modification_time := sortByMtimeDesc found
      let idx_by_index_path := buildIdxByIndexPath st.files index.slot_indices
      match classifyLoop st.files index.generation indices_by_modification_time
          idx_by_index_path [] [] 0 with
      | .panic k => .panic st k
      | .ok files1 idxRemaining newIndices toAdd numLoaded =>
        let needs_stable_indices := maintain_stable_indices st.num_handles_stable
        let next_possibly_free_index :=
          match maxSlotIndex index.slot_indices with
          | some m => (m + 1) % files1.length
          | none => 0
        let removeList0 := idxRemaining.map fun pr => pr.2
        match toAdd with
        | [] => publishPhase st env loose_dbs files1 newIndices removeList0 false numLoaded
        | c :: queue =>
          match assignLoop files1 c queue next_possibly_free_index 0 newIndices removeList0
              false index.generation needs_stable_indices with
          | .err files2 e => .err { st with files := files2 } e
          | .panic files2 k => .panic { st with files := files2 } k
          | .ok files2 newIndices2 removeList2 needsGen =>
            publishPhase st env loose_dbs files2 newIndices2 removeList2 needsGen numLoaded

/-- `consolidate_with_disk_state` (load_index.rs lines 110-330): record the
previous index pointer and generation, take the `objects_directory` mutex,
re-load the index; if its pointer changed while we waited, return the fresh
snapshot (`ReplaceStable` when the generation is unchanged, else `Replace`)
without further work; otherwise bump the consolidation counter and run the
disk scan. -/
def consolidate_with_disk_state (st : StoreState) (env : Env) : ConsolidateResult :=
  let previous_generation := st.index.generation
  match env.index_after_lock with
  | some newIndex =>
    let st1 : StoreState := { st with index := newIndex }
    .ok st1 (some (collect_replace_outcome st1 (newIndex.generation == previous_generation)))
  | none =>
    consolidateScan
      { st with num_disk_state_consolidation := st.num_disk_state_consolidation + 1 } env

/-- `load_one_index` (load_index.rs lines 78-107): an unpopulated store
consolidates against disk state; a stale generation returns
`Replace(current snapshot)`; a matching generation and state id goes
straight to the refresh-mode decision (the body carries a
`TODO: load another index file` and performs no lazy load), returning
`Ok(None)` under `Never` and consolidating under `AfterAllIndicesLoaded`;
otherwise `ReplaceStable(current snapshot)` is returned. -/
def load_one_index (st : StoreState) (refresh_mode : RefreshMode)
    (marker : SlotIndexMarker) (env : Env) : ConsolidateResult :=
  let index := st.index
  if !slot_map_is_populated index then consolidate_with_disk_state st env
  else if marker.generation ≠ index.generation then
    .ok st (some (collect_replace_outcome st false))
  else if marker.state_id == index.ptr_id then
    match refresh_mode with
    | .never => .ok st none
    | .afterAllIndicesLoaded => consolidate_with_disk_state st env
  else .ok st (some (collect_replace_outcome st true))

/-!
Concrete inputs used by the witnesses: a small valid v2 index file with two
entries (paths `a` and `b`), an EOIE offset of 140 and an IEOT table with
two one-entry chunks, plus small store states and refresh environments.
-/

/-- A valid v2 index file (Sha1): 12 header bytes, two 64-byte entries with
paths `a` (byte 97) and `b` (byte 98), an IEOT extension whose two chunk
descriptors are `(12, 1)` and `(76, 1)`, and a 20-byte trailer. -/
def exampleIndexData : List Nat :=
  [68, 73, 82, 67, 0, 0, 0, 2, 0, 0, 0, 2] ++
  (List.replicate 60 0 ++ [0, 1] ++ [97, 0]) ++
  (List.replicate 60 0 ++ [0, 1] ++ [98, 0]) ++
  [73, 69, 79, 84, 0, 0, 0, 16, 0, 0, 0, 12, 0, 0, 0, 1, 0, 0, 0, 76, 0, 0, 0, 1] ++
  List.replicate 20 0

/-- The entries outcome of decoding `exampleIndexData`. -/
def exampleOutcome : EntriesOutcome :=
  { entries :=
      [⟨⟨0, 0, 0, 0, 0, 0, 0, 0, 0, 0⟩, List.replicate 20 0, 1, ⟨0, 1⟩⟩,
       ⟨⟨0, 0, 0, 0, 0, 0, 0, 0, 0, 0⟩, List.replicate 20 0, 1, ⟨1, 2⟩⟩],
    path_backing := [97, 98],
    is_sparse := false }

/-- The objects-directory component used by the example store. -/
def objectsComp : String := "objects"

/-- The index-file component used by the example store. -/
def exampleIdxName : String := "a.idx"

/-- A small populated store: one slot holding an unloaded `a.idx` bundle,
published at generation 1 with pointer identity 5. -/
def exampleStore : StoreState :=
  { index := ⟨[0], [[objectsComp]], 1, 0, 0, 5⟩,
    files := [⟨some ⟨[exampleIdxName], 3, false, false⟩, 1⟩],
    num_handles_stable := 0, num_disk_state_consolidation := 0,
    path := [objectsComp] }

/-- A refresh environment whose pointer is unchanged and whose pack
directories are absent. -/
def exampleEnvQuiet : Env :=
  { index_after_lock := none, alternates := .ok [], pack_entries := fun _ => .notFound,
    fresh_ptr_id := 9 }

/-- A refresh environment whose alternate resolution fails. -/
def exampleEnvAlternateErr : Env :=
  { index_after_lock := none, alternates := .error (), pack_entries := fun _ => .notFound,
    fresh_ptr_id := 9 }

/-- A refresh environment whose pack-directory `read_dir` fails with a
non-`NotFound` I/O error. -/
def exampleEnvIoErr : Env :=
  { index_after_lock := none, alternates := .ok [], pack_entries := fun _ => .ioErr,
    fresh_ptr_id := 9 }

/-- `exampleStore` after a refresh attempt that only bumped the
consolidation counter. -/
def exampleStoreCounted : StoreState :=
  { exampleStore with num_disk_state_consolidation := 1 }

/-!
Helper lemmas about the entry-decoding merge algebra.
-/

theorem shiftEntry_zero (e : Entry) : shiftEntry 0 e = e := by
  simp [shiftEntry]

theorem shiftEntry_zero_fun : shiftEntry 0 = id :=
  funext fun e => shiftEntry_zero e

theorem shiftEntry_shiftEntry (a b : Nat) (e : Entry) :
    shiftEntry a (shiftEntry b e) = shiftEntry (a + b) e := by
  simp [shiftEntry, Range.mk.injEq]
  omega

theorem mergeOutcome_empty_left (o : EntriesOutcome) : mergeOutcome ⟨[], [], false⟩ o = o := by
  simp [mergeOutcome, shiftEntry_zero_fun]

theorem mergeOutcome_empty_right (o : EntriesOutcome) : mergeOutcome o ⟨[], [], false⟩ = o := by
  simp [mergeOutcome]

theorem mergeOutcome_assoc (a b c : EntriesOutcome) :
    mergeOutcome (mergeOutcome a b) c = mergeOutcome a (mergeOutcome b c) := by
  simp [mergeOutcome, List.map_map, Function.comp, shiftEntry_shiftEntry, List.append_assoc,
    Bool.or_assoc, Nat.add_comm]

/-- Decoding a chunk into non-empty accumulators equals decoding it into
empty ones and appending, with every new entry's path range shifted by the
previous backing length — the correctness core of the per-worker
accumulation and of the cross-worker merge. -/
theorem load_chunk_go_shift (object_hash : HashKind) (version : Version) :
    ∀ (n : Nat) (data prev_path : List Nat) (i : Nat) (es : List Entry) (pb : List Nat)
      (sp : Bool),
    load_chunk_go data es pb prev_path sp i n object_hash version =
      match load_chunk_go data [] [] prev_path false i n object_hash version with
      | .error e => .error e
      | .ok (ne, np, nsp, rest) =>
        .ok (es ++ ne.map (shiftEntry pb.length), pb ++ np, sp || nsp, rest) := by
  intro n
  induction n with
  | zero => intro data prev_path i es pb sp; simp [load_chunk_go]
  | succ n ih =>
    intro data prev_path i es pb sp
    simp only [load_chunk_go]
    cases hle : load_entry data prev_path object_hash version with
    | none => simp
    | some v =>
      obtain ⟨stat, id, flags, path, rest⟩ := v
      simp only [List.nil_append, List.length_nil, Nat.zero_add, Bool.false_or]
      have hL := ih rest path (i + 1)
        (es ++ [⟨stat, id, flags, ⟨pb.length, pb.length + path.length⟩⟩]) (pb ++ path)
        (sp || isSparseEntry stat)
      have hR := ih rest path (i + 1)
        [⟨stat, id, flags, ⟨0, path.length⟩⟩] path (isSparseEntry stat)
      rw [hL, hR]
      cases h2 : load_chunk_go rest [] [] path false (i + 1) n object_hash version with
      | error e => simp
      | ok v2 =>
        obtain ⟨ne, np, nsp, r⟩ := v2
        simp [List.map_map, Function.comp, shiftEntry_shiftEntry, shiftEntry,
          List.append_assoc, Bool.or_assoc, Nat.add_comm]
        intro a ha
        omega

/-- A worker's walk over its descriptors with non-empty accumulators equals
the walk with empty accumulators merged onto the accumulator value. -/
theorem worker_go_merge (data : List Nat) (object_hash : HashKind) (version : Version) :
    ∀ (descs : List ChunkOffset) (es : List Entry) (pb : List Nat) (sp : Bool),
    worker_go data descs es pb sp object_hash version =
      match worker_go data descs [] [] false object_hash version with
      | .error e => .error e
      | .ok o => .ok (mergeOutcome ⟨es, pb, sp⟩ o) := by
  intro descs
  induction descs with
  | nil => intro es pb sp; simp [worker_go, mergeOutcome_empty_right]
  | cons d rest ih =>
    intro es pb sp
    simp only [worker_go, load_chunk]
    rw [load_chunk_go_shift object_hash version d.num_entries
      (data.drop d.from_beginning_of_file) [] 0 es pb false]
    cases hc : load_chunk_go (data.drop d.from_beginning_of_file) [] [] [] false 0
        d.num_entries object_hash version with
    | error e => simp
    | ok v =>
      obtain ⟨ne, np, nsp, r⟩ := v
      simp only [Bool.false_or]
      have h1 := ih (es ++ ne.map (shiftEntry pb.length)) (pb ++ np) (sp || nsp)
      have h2 := ih ne np nsp
      rw [h1, h2]
      cases hw : worker_go data rest [] [] false object_hash version with
      | error e => simp
      | ok o =>
        simp only
        rw [← mergeOutcome_assoc]
        simp [mergeOutcome]

/-- Decoding a concatenation of descriptor lists equals decoding the two
halves independently and merging (with the source's error priority: the
left half's error wins). -/
theorem worker_go_append (data : List Nat) (object_hash : HashKind) (version : Version) :
    ∀ (l1 l2 : List ChunkOffset),
    worker_go data (l1 ++ l2) [] [] false object_hash version =
      match worker_go data l1 [] [] false object_hash version with
      | .error e => .error e
      | .ok o1 =>
        match worker_go data l2 [] [] false object_hash version with
        | .error e => .error e
        | .ok o2 => .ok (mergeOutcome o1 o2) := by
  intro l1
  induction l1 with
  | nil =>
    intro l2
    simp only [List.nil_append, worker_go]
    cases hw : worker_go data l2 [] [] false object_hash version with
    | error e => simp
    | ok o => simp [mergeOutcome_empty_left]
  | cons d l1 ih =>
    intro l2
    simp only [List.cons_append, worker_go]
    cases hc : load_chunk (data.drop d.from_beginning_of_file) [] [] d.num_entries
        object_hash version with
    | error e => simp
    | ok v =>
      obtain ⟨ne, np, nsp, r⟩ := v
      simp only [Bool.false_or, List.append_eq]
      have hA := worker_go_merge data object_hash version (l1 ++ l2) ne np nsp
      have hB := worker_go_merge data object_hash version l1 ne np nsp
      rw [hA, hB, ih l2]
      cases h1 : worker_go data l1 [] [] false object_hash version with
      | error e => simp
      | ok o1 =>
        cases h2 : worker_go data l2 [] [] false object_hash version with
        | error e => simp
        | ok o2 => simp [mergeOutcome_assoc]

/-- Folding in-order worker results over groups whose concatenation decodes
successfully yields the flat decode merged onto the accumulator. -/
theorem merge_results_join (data : List Nat) (object_hash : HashKind) (version : Version) :
    ∀ (groups : List (List ChunkOffset)) (acc out : EntriesOutcome),
    worker_go data groups.flatten [] [] false object_hash version = .ok out →
    merge_results (.ok acc)
        (groups.map (fun g => worker_go data g [] [] false object_hash version)) =
      .ok (mergeOutcome acc out) := by
  intro groups
  induction groups with
  | nil =>
    intro acc out h
    simp only [List.flatten_nil, worker_go] at h
    cases h
    simp [merge_results, mergeOutcome_empty_right]
  | cons g groups ih =>
    intro acc out h
    rw [List.flatten_cons, worker_go_append data object_hash version g groups.flatten] at h
    cases h1 : worker_go data g [] [] false object_hash version with
    | error e => rw [h1] at h; cases h
    | ok o1 =>
      rw [h1] at h
      cases h2 : worker_go data groups.flatten [] [] false object_hash version with
      | error e => rw [h2] at h; cases h
      | ok o2 =>
        rw [h2] at h
        cases h
        simp only [List.map_cons, merge_results, h1]
        rw [ih (mergeOutcome acc o1) o2 h2, mergeOutcome_assoc]

theorem chunksOfGo_flatten (k : Nat) (hk : k ≠ 0) :
    ∀ (fuel : Nat) (l : List α), l.length ≤ fuel → (chunksOfGo fuel k l).flatten = l := by
  intro fuel
  induction fuel with
  | zero =>
    intro l hl
    match l with
    | [] => simp [chunksOfGo]
    | x :: xs => simp at hl
  | succ n ih =>
    intro l hl
    match l with
    | [] => simp [chunksOfGo]
    | x :: xs =>
      simp only [chunksOfGo, hk, if_false]
      rw [List.flatten_cons,
        ih ((x :: xs).drop k) (by simp [List.length_drop, List.length_cons] at hl ⊢; omega)]
      exact List.take_append_drop k (x :: xs)

theorem chunksOf_join (k : Nat) (hk : k ≠ 0) : ∀ (l : List α), (chunksOf k l).flatten = l :=
  fun l => chunksOfGo_flatten k hk l.length l le_rfl

theorem chunksOf_ne_nil (k : Nat) (hk : k ≠ 0) (x : α) (xs : List α) :
    chunksOf k (x :: xs) ≠ [] := by
  show chunksOfGo (x :: xs).length k (x :: xs) ≠ []
  rw [List.length_cons]
  simp [chunksOfGo, hk]

theorem ceilDiv_ne_zero (a b : Nat) (ha : a ≠ 0) (hb : b ≠ 0) : ceilDiv a b ≠ 0 := by
  unfold ceilDiv
  have hb' : 0 < b := Nat.pos_of_ne_zero hb
  have h1 : 1 * b ≤ a + b - 1 := by omega
  have h2 := (Nat.le_div_iff_mul_le hb').mpr h1
  omega

/-- C1: for a valid index file whose IEOT table is truthful (decoding the
chunk descriptors one after the other reproduces the sequential decode of
all entries, which ends exactly at the extension offset), `from_bytes` with
a thread limit allowing parallel decoding returns exactly the same result —
the same ordered entries with identical path ranges over the same path
backing, the same sparse flag, extension payloads and checksum — as the
fully sequential decode with a thread limit of one. -/
theorem from_bytes_parallel_matches_sequential
    (data post_header_data : List Nat) (timestamp cores minExt : Nat)
    (object_hash : HashKind) (thread_limit : Option Nat) (offset num_entries : Nat)
    (version : Version) (descs : List ChunkOffset) (out : EntriesOutcome)
    (hHeader : header_decode data object_hash = .ok (version, num_entries, post_header_data))
    (hThreads : 1 < num_threads thread_limit cores)
    (hIeot : index_entry_offset_table_find (data.drop offset) object_hash = some descs)
    (hNe : descs ≠ [])
    (hSeq : load_chunk post_header_data [] [] num_entries object_hash version =
      .ok (out.entries, out.path_backing, out.is_sparse, data.drop offset))
    (hTruthful : worker_go data descs [] [] false object_hash version = .ok out) :
    from_bytes data timestamp ⟨object_hash, thread_limit, minExt⟩ cores (some offset) =
      from_bytes data timestamp ⟨object_hash, some 1, minExt⟩ cores (some offset) := by
  have hone : num_threads (some 1) cores = 1 := rfl
  have hk : ceilDiv descs.length (num_threads thread_limit cores - 1) ≠ 0 := by
    apply ceilDiv_ne_zero
    · cases descs with
      | nil => exact absurd rfl hNe
      | cons x xs => simp
    · omega
  obtain ⟨g0, gs, hg⟩ : ∃ g0 gs,
      chunksOf (ceilDiv descs.length (num_threads thread_limit cores - 1)) descs = g0 :: gs := by
    cases hcg : chunksOf (ceilDiv descs.length (num_threads thread_limit cores - 1)) descs with
    | nil =>
      cases descs with
      | nil => exact absurd rfl hNe
      | cons x xs => exact absurd hcg (chunksOf_ne_nil _ hk x xs)
    | cons a b => exact ⟨a, b, rfl⟩
  have hjoin : g0 ++ gs.flatten = descs := by
    have h := chunksOf_join _ hk descs
    rw [hg, List.flatten_cons] at h
    exact h
  have hsplit := hTruthful
  rw [← hjoin, worker_go_append data object_hash version g0 gs.flatten] at hsplit
  cases h1 : worker_go data g0 [] [] false object_hash version with
  | error e => rw [h1] at hsplit; cases hsplit
  | ok o1 =>
    rw [h1] at hsplit
    cases h2 : worker_go data gs.flatten [] [] false object_hash version with
    | error e => rw [h2] at hsplit; cases hsplit
    | ok o2 =>
      rw [h2] at hsplit
      have hmerge12 : mergeOutcome o1 o2 = out := by
        cases hsplit
        rfl
      have hmr : merge_results (.ok o1)
          (gs.map (fun g => worker_go data g [] [] false object_hash version)) = .ok out := by
        rw [merge_results_join data object_hash version gs o1 o2 h2, hmerge12]
      have hout : (⟨out.entries, out.path_backing, out.is_sparse⟩ : EntriesOutcome) = out := rfl
      simp only [from_bytes, hHeader, hone, extension_loading_decision]
      simp only [hIeot, hg, List.map_cons, h1]
      have hcond : (1 < num_threads thread_limit cores) = True := by simp [hThreads]
      simp only [gt_iff_lt, hcond, if_true, lt_self_iff_false, if_false, hmr]
      simp only [sequentialPath, load_entries, hSeq, hout]

set_option maxRecDepth 10000 in
/-- Witness for C1: on the concrete two-entry v2 index file with a two-chunk
IEOT table, decoding with two threads equals decoding with one. -/
theorem from_bytes_parallel_matches_sequential_witness :
    from_bytes exampleIndexData 7 ⟨.sha1, some 2, 0⟩ 2 (some 140) =
      from_bytes exampleIndexData 7 ⟨.sha1, some 1, 0⟩ 2 (some 140) :=
  from_bytes_parallel_matches_sequential exampleIndexData (exampleIndexData.drop 12) 7 2 0
    .sha1 (some 2) 140 2 .v2 [⟨12, 1⟩, ⟨76, 1⟩] exampleOutcome
    (by decide) (by decide) (by decide) (by decide) (by decide) (by decide)

/-- The checksum returned by a successful `finishDecode` has exactly the
hash length. -/
theorem finishDecode_ok_length (timestamp : Nat) (version : Version)
    (outcome : EntriesOutcome) (ext : ExtOutcome) (rest : List Nat)
    (object_hash : HashKind) (st : IndexState) (chk : List Nat)
    (h : finishDecode timestamp version outcome ext rest object_hash = .ok st chk) :
    chk.length = object_hash.len_in_bytes := by
  unfold finishDecode at h
  split at h
  · cases h
  · cases h
    omega

/-- The checksum returned by a successful `sequentialPath` has exactly the
hash length. -/
theorem sequentialPath_ok_length (timestamp : Nat) (version : Version) (num_entries : Nat)
    (post_header_data : List Nat) (object_hash : HashKind) (st : IndexState) (chk : List Nat)
    (h : sequentialPath timestamp version num_entries post_header_data object_hash =
      .ok st chk) :
    chk.length = object_hash.len_in_bytes := by
  unfold sequentialPath at h
  split at h
  · cases h
  · split at h
    · cases h
    · exact finishDecode_ok_length _ _ _ _ _ _ _ _ h

/-- C6: the trailer check of `State::from_bytes` — after entries and
extensions are decoded, a remaining slice whose length is not exactly the
hash length yields `UnexpectedTrailerLength` carrying the expected hash
length and the actual remaining length; and every successful `from_bytes`
returns a checksum slice of exactly the hash length. -/
theorem from_bytes_trailer_length_checked (timestamp : Nat) (version : Version)
    (outcome : EntriesOutcome) (ext : ExtOutcome) (rest : List Nat)
    (object_hash : HashKind)
    (hlen : rest.length ≠ object_hash.len_in_bytes) :
    finishDecode timestamp version outcome ext rest object_hash =
      .err (.unexpectedTrailerLength object_hash.len_in_bytes rest.length) ∧
    (∀ (data : List Nat) (ts : Nat) (opts : Options) (cores : Nat)
      (start_of_extensions : Option Nat) (st : IndexState) (chk : List Nat),
      from_bytes data ts opts cores start_of_extensions = .ok st chk →
      chk.length = opts.object_hash.len_in_bytes) := by
  constructor
  · unfold finishDecode
    simp [hlen]
  · intro data ts opts cores start_of_extensions st chk h
    simp only [from_bytes] at h
    repeat' split at h
    all_goals
      first
      | cases h
      | exact finishDecode_ok_length _ _ _ _ _ _ _ _ h
      | exact sequentialPath_ok_length _ _ _ _ _ _ _ h

/-- Witness for C6: a trailer of one zero byte instead of twenty yields
`UnexpectedTrailerLength{expected := 20, actual := 1}`, and the successful
decode of the concrete example file returns a 20-byte checksum. -/
theorem from_bytes_trailer_length_checked_witness :
    finishDecode 0 .v2 ⟨[], [], false⟩ ⟨none, none, none, none, false⟩ [0] .sha1 =
      .err (.unexpectedTrailerLength 20 1) := by
  exact (from_bytes_trailer_length_checked 0 .v2 ⟨[], [], false⟩
    ⟨none, none, none, none, false⟩ [0] .sha1 (by decide)).1

/-- C3 (the code contradicts the claim): in the parallel branch, the
argument block of `bool::then` is evaluated eagerly (decode/mod.rs lines
78-82), so one worker is subtracted from the entry-decoding thread count
regardless of whether the extension block exceeds
`min_extension_block_in_bytes_for_threading`.  With 4 effective threads and
a 10-byte extension block under a threshold of 100, no extension worker is
spawned, yet only 3 threads remain for entry decoding — the claim's
"iff" direction fails. -/
theorem extension_loading_decision_decrements_unconditionally :
    (∀ (extensions_data_len min_threshold num_threads : Nat),
      (extension_loading_decision extensions_data_len min_threshold num_threads).1 =
        num_threads - 1) ∧
    extension_loading_decision 10 100 4 = (3, false) := by
  constructor
  · intro a b c
    rfl
  · rfl

/-- C2 (the code contradicts the claim): `maintain_stable_indices`
(load_index.rs lines 481-483) returns `num_handles_stable == 0` — with no
registered stable reader it reports that stable indices must be maintained,
and with one registered stable reader it reports that they need not be,
the exact opposite of "true iff the stable-handle counter is greater than
zero". -/
theorem maintain_stable_indices_is_inverted :
    maintain_stable_indices 0 = true ∧ maintain_stable_indices 1 = false := by
  decide

/-- C8 (the code contradicts the claim): `set_slot_to_index` (load_index.rs
lines 406-418) stores the new bundle under the slot's write mutex but never
stores the generation passed in — the slot's generation tag is left exactly
as it was, for every slot and every generation value. -/
theorem set_slot_to_index_ignores_generation
    (slot : MutableIndexAndPack) (index_path : DiskPath) (mtime generation : Nat) :
    set_slot_to_index slot index_path mtime generation =
      { files := some (new_by_index_path index_path mtime),
        generation := slot.generation } :=
  rfl

/-- C9 (the code contradicts the claim): `untracked::decode`
(extension/mod.rs lines 50-52) is `todo!("decode UNTR")` and panics on
every payload and object-hash kind instead of returning a typed
`Option<Untracked>` value. -/
theorem untracked_decode_always_panics :
    ∀ (data : List Nat) (object_hash : HashKind),
      untracked_decode data object_hash = .panics .todoDecodeUntr :=
  fun _ _ => rfl

/-- C4 (the code contradicts the claim): when the store is populated and
the reader's marker matches both the current generation and the current
state id, `load_one_index` (load_index.rs lines 92-101) does not try to
load one more unloaded index — the body carries a
`TODO: load another index file` — and under `RefreshMode::Never` it
immediately returns `Ok(None)` with the store state completely untouched
(in particular no loaded-index count or lazy-loading cursor changes), even
when unloaded indices remain. -/
theorem load_one_index_performs_no_lazy_load (st : StoreState)
    (marker : SlotIndexMarker) (env : Env)
    (hInit : slot_map_is_populated st.index = true)
    (hGen : marker.generation = st.index.generation)
    (hState : marker.state_id = st.index.ptr_id) :
    load_one_index st .never marker env = .ok st none := by
  unfold load_one_index
  simp [hInit, hGen, hState]

/-- Witness for C4: the example store holds one unloaded index
(`loaded_indices = 0` with slot 0 populated), yet a matching marker under
`RefreshMode::Never` yields `Ok(None)` and the identical store state. -/
theorem load_one_index_performs_no_lazy_load_witness :
    load_one_index exampleStore .never ⟨1, 5⟩ exampleEnvQuiet = .ok exampleStore none :=
  load_one_index_performs_no_lazy_load exampleStore ⟨1, 5⟩ exampleEnvQuiet
    (by decide) (by decide) (by decide)

/-- A successful generation computation yields the previous generation plus
one iff a change was requested, and never decreases. -/
theorem computeGeneration_ok (prev : Nat) (needs : Bool) (g : Nat)
    (h : computeGeneration prev needs = .ok g) :
    g = (if needs then prev + 1 else prev) ∧ prev ≤ g := by
  unfold computeGeneration at h
  split at h
  · split at h
    · cases h
    · cases h
      rename_i hn _
      simp [hn]
  · cases h
    rename_i hn
    simp [hn]

/-- The publication tail never returns `Ok`. -/
theorem publishPhase_not_ok (st : StoreState) (env : Env) (loose_dbs : List DiskPath)
    (files : List MutableIndexAndPack) (newIndices removeList : List Nat)
    (needs_generation_change : Bool) (numLoaded : Nat) :
    (publishPhase st env loose_dbs files newIndices removeList needs_generation_change
      numLoaded).isOk = false := by
  simp only [publishPhase]
  split
  · rfl
  · split
    · rfl
    · rfl

/-- When the publication tail returns an error, the published index is the
one the call started from. -/
theorem publishPhase_err_index (st : StoreState) (env : Env) (loose_dbs : List DiskPath)
    (files : List MutableIndexAndPack) (newIndices removeList : List Nat)
    (needs_generation_change : Bool) (numLoaded : Nat) (st' : StoreState) (e : StoreError)
    (h : publishPhase st env loose_dbs files newIndices removeList needs_generation_change
      numLoaded = .err st' e) :
    st'.index = st.index := by
  simp only [publishPhase] at h
  split at h
  · cases h
    rfl
  · split at h
    · cases h
    · cases h

/-- The publication tail never decreases the published generation. -/
theorem publishPhase_gen_mono (st : StoreState) (env : Env) (loose_dbs : List DiskPath)
    (files : List MutableIndexAndPack) (newIndices removeList : List Nat)
    (needs_generation_change : Bool) (numLoaded : Nat) :
    st.index.generation ≤
      ((publishPhase st env loose_dbs files newIndices removeList needs_generation_change
        numLoaded).state).index.generation := by
  simp only [publishPhase]
  split
  · simp [ConsolidateResult.state]
  · rename_i generation hgen
    split
    · simp [ConsolidateResult.state]
    · split
      · simp only [ConsolidateResult.state]
        exact (computeGeneration_ok _ _ _ hgen).2
      · simp [ConsolidateResult.state]

/-- The disk-scanning refresh never returns `Ok`: every path past the
early-exit check ends in an error or a panic (the `todo!`). -/
theorem consolidateScan_not_ok (st : StoreState) (env : Env) :
    (consolidateScan st env).isOk = false := by
  simp only [consolidateScan]
  repeat' split
  all_goals first
    | rfl
    | apply publishPhase_not_ok

/-- When the disk-scanning refresh returns an error, the published index is
unchanged. -/
theorem consolidateScan_err_index (st : StoreState) (env : Env) (st' : StoreState)
    (e : StoreError) (h : consolidateScan st env = .err st' e) :
    st'.index = st.index := by
  simp only [consolidateScan] at h
  repeat' split at h
  all_goals first
    | (cases h <;> rfl)
    | exact publishPhase_err_index _ _ _ _ _ _ _ _ _ _ h

/-- The disk-scanning refresh never decreases the published generation. -/
theorem consolidateScan_gen_mono (st : StoreState) (env : Env) :
    st.index.generation ≤ ((consolidateScan st env).state).index.generation := by
  simp only [consolidateScan]
  repeat' split
  all_goals first
    | apply publishPhase_gen_mono
    | simp [ConsolidateResult.state]

/-- C10: `consolidate_with_disk_state` returns `Ok` exactly when another
refresher replaced the `SlotMapIndex` while we waited for the
`objects_directory` mutex (the early path); every run that actually scans
the disk either returns an error or ends in a panic — the unconditional
`todo!("consolidate")` after the slot-removal loop — so a full
disk-reconciling refresh never delivers a snapshot to its caller. -/
theorem consolidate_ok_only_on_early_path (st : StoreState) (env : Env) :
    (consolidate_with_disk_state st env).isOk = env.index_after_lock.isSome := by
  unfold consolidate_with_disk_state
  cases env.index_after_lock with
  | some ix => rfl
  | none => simp [consolidateScan_not_ok]

/-- C7: whenever a refresh returns a filesystem error (`Inaccessible`,
`Io` or `Alternate`), the published `SlotMapIndex` is left unchanged — no
store of a new index occurs on any error-returning path (the only store is
followed by the `todo!` panic, not by an error return). -/
theorem refresh_fs_error_leaves_published_index (st st' : StoreState) (env : Env)
    (e : StoreError)
    (h : consolidate_with_disk_state st env = .err st' e)
    (hfs : e.isFsError = true) :
    st'.index = st.index := by
  cases henv : env.index_after_lock with
  | some ix =>
    simp only [consolidate_with_disk_state, henv] at h
    cases h
  | none =>
    simp only [consolidate_with_disk_state, henv] at h
    exact consolidateScan_err_index
      { st with num_disk_state_consolidation := st.num_disk_state_consolidation + 1 } env st' e h

/-- Witness for C7: a refresh against an environment whose alternate
resolution fails leaves the published index untouched (only the
consolidation counter moved). -/
theorem refresh_fs_error_leaves_published_index_witness :
    exampleStoreCounted.index = exampleStore.index :=
  refresh_fs_error_leaves_published_index exampleStore exampleStoreCounted
    exampleEnvAlternateErr .alternate (by decide) (by decide)

/-- C5: the new generation of a refresh is `prev + 1` iff
`needs_generation_change` was set (failing with `GenerationOverflow`
instead of wrapping when `prev` is the maximum generation value), and
across every refresh that this refresher carries out itself the published
generation is monotonically non-decreasing. -/
theorem refresh_generation_discipline (st : StoreState) (env : Env) (prev : Nat)
    (needs : Bool) (hEarly : env.index_after_lock = none) :
    (computeGeneration prev needs = .ok (if needs then prev + 1 else prev) ∨
      (needs = true ∧ prev = GENERATION_MAX ∧
        computeGeneration prev needs = .error .generationOverflow)) ∧
    st.index.generation ≤ ((consolidate_with_disk_state st env).state).index.generation := by
  constructor
  · cases needs with
    | false => left; simp [computeGeneration]
    | true =>
      by_cases hp : prev = GENERATION_MAX
      · right
        simp [computeGeneration, hp]
      · left
        simp [computeGeneration, hp]
  · simp only [consolidate_with_disk_state, hEarly]
    exact consolidateScan_gen_mono
      { st with num_disk_state_consolidation := st.num_disk_state_consolidation + 1 } env

/-- Witness for C5: a refresh whose pack-directory scan fails with an I/O
error keeps the example store's generation at 1 ≥ 1, and
`computeGeneration 3 true = Ok 4`. -/
theorem refresh_generation_discipline_witness :
    (computeGeneration 3 true = .ok (if true then 3 + 1 else 3) ∨
      (true = true ∧ 3 = GENERATION_MAX ∧
        computeGeneration 3 true = .error .generationOverflow)) ∧
    exampleStore.index.generation ≤
      ((consolidate_with_disk_state exampleStore exampleEnvIoErr).state).index.generation :=
  refresh_generation_discipline exampleStore exampleEnvIoErr 3 true rfl

end Gitoxide
